import Mathlib

/-!
Verification of the perceptron-based cache replacement policy
(repository ramiab12/perceptron-cache-replacement).

The definitions below are a shallow embedding of the Go sources
src/akita/mem/cache/perceptron_victimfinder.go and
src/akita/mem/cache/directory.go.  The repository carries several
snapshots of the perceptron; the one embedded here is the newest
revision (the one with the training sampling counter
trainingSampleCounter, the single-entry last-prediction cache
lastPredictionAddr / lastPredictionSum, and learning rate 2), which is
the revision the design document describes as the final design.

Modelling conventions:
- Go uint64 addresses and bit vectors are modelled as Nat.
- Go int32 values are modelled as Int; where int32 overflow could
  change a result (the weight add/sub inside training, the running
  prediction sum, unary negation inside abs) the operation is wrapped
  with wrap32, the explicit two's-complement reduction modulo 2^32.
- The 64-bit statistics counters (totalPredictions,
  correctPredictions: int64; trainingSampleCounter: uint64) are
  modelled as unbounded Int / Nat: their only uses are increments by
  one and a divisibility test, and 64-bit wraparound of a
  monotonically incremented counter is out of scope.
- float64 division in GetAccuracy is modelled as exact division in ℚ;
  the properties checked about it (the zero guard and GetStats
  returning the very same value) do not depend on rounding.
- Fields of Block that the replacement policy never reads (PID,
  CacheAddress, ReadCount, DirtyMask) are omitted.
-/

namespace PerceptronCache

/-- Two's-complement reduction of an unbounded integer into the int32
range [-2^31, 2^31), applied wherever Go performs int32 arithmetic
that could overflow. -/
def wrap32 (x : Int) : Int := (x + 2 ^ 31) % 2 ^ 32 - 2 ^ 31

/-- Go utility func abs(x int32): branch on sign; the negation is
int32 negation, hence wrapped. -/
def abs32 (x : Int) : Int := if x < 0 then wrap32 (-x) else x

/-- Go utility func max(a, b int32). -/
def max32 (a b : Int) : Int := if a > b then a else b

/-- Go utility func min(a, b int32). -/
def min32 (a b : Int) : Int := if a < b then a else b

/-- One cache block slot (struct Block in directory.go), restricted to
the fields the replacement policy reads. -/
structure Block where
  tag : Nat
  wayID : Nat
  setID : Nat
  isValid : Bool
  isDirty : Bool
  isLocked : Bool
deriving Repr, DecidableEq

/-- One cache set (struct Set in directory.go): the block slots plus
the Tree-PseudoLRU bit vector. -/
structure CacheSet where
  blocks : List Block
  pseudoLRUBits : Nat
deriving Repr, DecidableEq

/-- Context passed to victim selection (struct VictimContext). -/
structure VictimContext where
  address : Nat
  accessType : String
  cacheLineID : Nat
deriving Repr, DecidableEq

/-- The perceptron predictor state (struct PerceptronVictimFinder,
newest revision).  weights models the [32]int32 array as a function
read and written only at indices below 32. -/
structure Perceptron where
  weights : Nat → Int
  threshold : Int
  theta : Int
  learningRate : Int
  totalPredictions : Int
  correctPredictions : Int
  trainingSampleCounter : Nat
  lastPredictionAddr : Nat
  lastPredictionSum : Int

/-- NewPerceptronVictimFinderWithParams: zero weights, zero counters. -/
def NewPerceptronVictimFinderWithParams (threshold theta learningRate : Int) :
    Perceptron :=
  { weights := fun _ => 0
    threshold := threshold
    theta := theta
    learningRate := learningRate
    totalPredictions := 0
    correctPredictions := 0
    trainingSampleCounter := 0
    lastPredictionAddr := 0
    lastPredictionSum := 0 }

/-- NewPerceptronVictimFinder: the default constructor,
NewPerceptronVictimFinderWithParams(0, 32, 2). -/
def NewPerceptronVictimFinder : Perceptron :=
  NewPerceptronVictimFinderWithParams 0 32 2

/-- shouldTrain: post-increment the sampling counter and report
whether this training call is admitted (every 5th call). -/
def shouldTrain (p : Perceptron) : Bool × Perceptron :=
  let c := p.trainingSampleCounter + 1
  ((c % 5 == 0), { p with trainingSampleCounter := c })

/-- One of the two 16-iteration loops of calculatePredictionSum: fold
over i = 0..15, adding weights[off+i] when bit off+i of addr is set.
The int32 accumulation is wrapped. -/
def calcSumLoop (w : Nat → Int) (addr : Nat) (off : Nat) (s : Int) : Int :=
  (List.range 16).foldl
    (fun acc i => if addr.testBit (off + i) then wrap32 (acc + w (off + i)) else acc) s

/-- calculatePredictionSum: sum the weights selected by the low 16
address bits, then by the next 16 address bits. -/
def calculatePredictionSum (p : Perceptron) (addr : Nat) : Int :=
  calcSumLoop p.weights addr 16 (calcSumLoop p.weights addr 0 0)

/-- The weight-update loops of trainWithSum: for every i < 32 with bit
i of addr set, move weights[i] by the learning rate and clamp into
[-32, 31]; the int32 add/sub itself is wrapped. -/
def trainWeights (w : Nat → Int) (addr : Nat) (lr : Int) (actualReuse : Bool) :
    Nat → Int :=
  fun i =>
    if i < 32 ∧ addr.testBit i = true then
      if actualReuse then max32 (-32) (wrap32 (w i - lr))
      else min32 31 (wrap32 (w i + lr))
    else w i

/-- trainWithSum: apply the perceptron learning rule using an already
available sum, then update the accuracy statistics. -/
def trainWithSum (p : Perceptron) (addr : Nat) (predictedNoReuse : Bool)
    (sum : Int) (actualReuse : Bool) : Perceptron :=
  let actualNoReuse := !actualReuse
  let newWeights :=
    if predictedNoReuse ≠ actualNoReuse ∨ abs32 sum < p.theta then
      trainWeights p.weights addr p.learningRate actualReuse
    else p.weights
  { p with
    weights := newWeights
    correctPredictions :=
      if predictedNoReuse = actualNoReuse then p.correctPredictions + 1
      else p.correctPredictions }

/-- TrainOnHit: gate by the sampling counter; reuse the cached sum when
the address matches the last scored address, otherwise recompute;
train with actualReuse = true. -/
def TrainOnHit (p : Perceptron) (addr : Nat) : Perceptron :=
  let fp := shouldTrain p
  if fp.1 = false then fp.2
  else
    let p1 := fp.2
    if p1.lastPredictionAddr = addr then
      trainWithSum p1 addr (decide (p1.lastPredictionSum ≥ p1.threshold))
        p1.lastPredictionSum true
    else
      trainWithSum p1 addr
        (decide (calculatePredictionSum p1 addr ≥ p1.threshold))
        (calculatePredictionSum p1 addr) true

/-- TrainOnEviction: same gating and sum lookup as TrainOnHit, training
with actualReuse = false. -/
def TrainOnEviction (p : Perceptron) (addr : Nat) : Perceptron :=
  let fp := shouldTrain p
  if fp.1 = false then fp.2
  else
    let p1 := fp.2
    if p1.lastPredictionAddr = addr then
      trainWithSum p1 addr (decide (p1.lastPredictionSum ≥ p1.threshold))
        p1.lastPredictionSum false
    else
      trainWithSum p1 addr
        (decide (calculatePredictionSum p1 addr ≥ p1.threshold))
        (calculatePredictionSum p1 addr) false

/-- Access: direct training on a hit; identical to TrainOnHit in this
revision. -/
def Access (p : Perceptron) (addr : Nat) : Perceptron :=
  let fp := shouldTrain p
  if fp.1 = false then fp.2
  else
    let p1 := fp.2
    if p1.lastPredictionAddr = addr then
      trainWithSum p1 addr (decide (p1.lastPredictionSum ≥ p1.threshold))
        p1.lastPredictionSum true
    else
      trainWithSum p1 addr
        (decide (calculatePredictionSum p1 addr ≥ p1.threshold))
        (calculatePredictionSum p1 addr) true

/-- getPseudoLRUVictim8Way: follow the 7-bit tree; Go tests
(bits & (1 shifted by k)) == 0, i.e. the negation of testBit. -/
def getPseudoLRUVictim8Way (bits : Nat) : Nat :=
  if bits.testBit 0 = false then
    if bits.testBit 1 = false then
      if bits.testBit 3 = false then 0 else 1
    else
      if bits.testBit 4 = false then 2 else 3
  else
    if bits.testBit 2 = false then
      if bits.testBit 5 = false then 4 else 5
    else
      if bits.testBit 6 = false then 6 else 7

/-- getPseudoLRUVictim: the way id of the PseudoLRU victim, by
associativity; non-power-of-two ways fall back to round robin. -/
def getPseudoLRUVictim (bits : Nat) (numWays : Nat) : Nat :=
  match numWays with
  | 2 => if bits.testBit 0 = false then 0 else 1
  | 4 =>
    if bits.testBit 0 = false then
      if bits.testBit 1 = false then 0 else 1
    else
      if bits.testBit 2 = false then 2 else 3
  | 8 => getPseudoLRUVictim8Way bits
  | _ => bits % numWays

/-- findPseudoLRUVictim (the revision with the final first-block
fallback): victim way if in range and unlocked, else the first
unlocked block, else the first block (head?). -/
def findPseudoLRUVictim (set : CacheSet) : Option Block :=
  match set.blocks[getPseudoLRUVictim set.pseudoLRUBits set.blocks.length]? with
  | some b =>
    if b.isLocked = false then some b
    else
      match set.blocks.find? (fun c => !c.isLocked) with
      | some c => some c
      | none => set.blocks.head?
  | none =>
    match set.blocks.find? (fun c => !c.isLocked) with
    | some c => some c
    | none => set.blocks.head?

/-- selectVictim: invalid-and-unlocked blocks first; then, when the
prediction is confident, a confident no-reuse prediction evicts the
first unlocked block (falling through to the first block), and every
other case defers to the PseudoLRU baseline. -/
def selectVictim (p : Perceptron) (set : CacheSet) (predictNoReuse : Bool)
    (predictionSum : Int) : Option Block :=
  match set.blocks.find? (fun b => !b.isValid && !b.isLocked) with
  | some b => some b
  | none =>
    if abs32 predictionSum ≥ p.theta then
      if predictNoReuse then
        match set.blocks.find? (fun b => !b.isLocked) with
        | some b => some b
        | none => set.blocks.head?
      else findPseudoLRUVictim set
    else findPseudoLRUVictim set

/-- FindVictimWithContext: score the address, refresh the single-entry
prediction cache, select the victim, bump totalPredictions. -/
def FindVictimWithContext (p : Perceptron) (set : CacheSet)
    (context : VictimContext) : Option Block × Perceptron :=
  let sum := calculatePredictionSum p context.address
  let p1 := { p with
              lastPredictionAddr := context.address
              lastPredictionSum := sum }
  let predictNoReuse := decide (sum ≥ p.threshold)
  let victim := selectVictim p1 set predictNoReuse sum
  (victim, { p1 with totalPredictions := p1.totalPredictions + 1 })

/-- Bitwise complement of a single bit position within a 64-bit word,
as Go computes with the mask expression on uint64. -/
def mask64 (k : Nat) : Nat := 2 ^ 64 - 1 - 2 ^ k

/-- Clearing one bit of a 64-bit word (Go: AND with the complement of
a one-bit mask). -/
def clearBit64 (n k : Nat) : Nat := n &&& mask64 k

/-- Setting one bit of a 64-bit word (Go: OR with a one-bit mask). -/
def setBit64 (n k : Nat) : Nat := n ||| 2 ^ k

/-- updatePseudoLRU8Way: write the root, level-two and level-three
bits along the path of the touched way. -/
def updatePseudoLRU8Way (bits : Nat) (wayID : Nat) : Nat :=
  if wayID < 4 then
    let b0 := clearBit64 bits 0
    if wayID < 2 then
      let b1 := clearBit64 b0 1
      if wayID = 0 then setBit64 b1 3 else clearBit64 b1 3
    else
      let b1 := setBit64 b0 1
      if wayID = 2 then setBit64 b1 4 else clearBit64 b1 4
  else
    let b0 := setBit64 bits 0
    if wayID < 6 then
      let b1 := clearBit64 b0 2
      if wayID = 4 then setBit64 b1 5 else clearBit64 b1 5
    else
      let b1 := setBit64 b0 2
      if wayID = 6 then setBit64 b1 6 else clearBit64 b1 6

/-- updatePseudoLRU (DirectoryImpl, on the bit vector): the recency
update for the touched way, by associativity. -/
def updatePseudoLRU (bits : Nat) (numWays : Nat) (wayID : Nat) : Nat :=
  match numWays with
  | 2 => if wayID = 0 then setBit64 bits 0 else clearBit64 bits 0
  | 4 =>
    if wayID < 2 then
      let b0 := clearBit64 bits 0
      if wayID = 0 then setBit64 b0 1 else clearBit64 b0 1
    else
      let b0 := setBit64 bits 0
      if wayID = 2 then setBit64 b0 2 else clearBit64 b0 2
  | 8 => updatePseudoLRU8Way bits wayID
  | _ => (bits + 1) % numWays

/-- GetAccuracy: zero when nothing was predicted, otherwise the exact
ratio of the two counters. -/
def GetAccuracy (p : Perceptron) : ℚ :=
  if p.totalPredictions = 0 then 0
  else (p.correctPredictions : ℚ) / (p.totalPredictions : ℚ)

/-- GetStats: the two counters together with GetAccuracy. -/
def GetStats (p : Perceptron) : Int × Int × ℚ :=
  (p.totalPredictions, p.correctPredictions, GetAccuracy p)

/-- One observable operation on the predictor: a victim lookup with
context (which scores the address), or one of the three training entry
points. -/
inductive Op where
  | score : CacheSet → VictimContext → Op
  | hit : Nat → Op
  | evict : Nat → Op
  | access : Nat → Op

/-- Apply one operation to the predictor state. -/
def applyOp (p : Perceptron) : Op → Perceptron
  | Op.score set ctx => (FindVictimWithContext p set ctx).2
  | Op.hit addr => TrainOnHit p addr
  | Op.evict addr => TrainOnEviction p addr
  | Op.access addr => Access p addr

/-- Run a sequence of operations from a starting state. -/
def run (p : Perceptron) (ops : List Op) : Perceptron :=
  ops.foldl applyOp p

/-- The documented 6-bit-signed weight range. -/
def WeightsInRange (w : Nat → Int) : Prop :=
  ∀ i, i < 32 → -32 ≤ w i ∧ w i ≤ 31

/-! ### Basic arithmetic lemmas -/

lemma wrap32_eq_self {x : Int} (h1 : -2147483648 ≤ x) (h2 : x < 2147483648) :
    wrap32 x = x := by
  have e1 : (2 : Int) ^ 31 = 2147483648 := by norm_num
  have e2 : (2 : Int) ^ 32 = 4294967296 := by norm_num
  unfold wrap32
  rw [e1, e2, Int.emod_eq_of_lt (by omega) (by omega)]
  omega

/-! ### Projection lemmas for the training entry points -/

lemma trainWithSum_counter (p : Perceptron) (a : Nat) (pr : Bool) (s : Int)
    (b : Bool) :
    (trainWithSum p a pr s b).trainingSampleCounter = p.trainingSampleCounter :=
  rfl

lemma trainWithSum_total (p : Perceptron) (a : Nat) (pr : Bool) (s : Int)
    (b : Bool) :
    (trainWithSum p a pr s b).totalPredictions = p.totalPredictions :=
  rfl

lemma trainWithSum_correct_bounds (p : Perceptron) (a : Nat) (pr : Bool)
    (s : Int) (b : Bool) :
    p.correctPredictions ≤ (trainWithSum p a pr s b).correctPredictions ∧
      (trainWithSum p a pr s b).correctPredictions ≤ p.correctPredictions + 1 := by
  unfold trainWithSum
  dsimp only
  constructor <;> (split <;> omega)

/-- The state after the sampling gate has advanced the counter. -/
def afterGate (p : Perceptron) : Perceptron :=
  { p with trainingSampleCounter := p.trainingSampleCounter + 1 }

lemma TrainOnHit_reject (p : Perceptron) (a : Nat)
    (h : (p.trainingSampleCounter + 1) % 5 ≠ 0) :
    TrainOnHit p a = afterGate p := by
  have hb : ((p.trainingSampleCounter + 1) % 5 == 0) = false :=
    beq_eq_false_iff_ne.mpr h
  unfold TrainOnHit shouldTrain afterGate
  simp [hb]

lemma TrainOnEviction_reject (p : Perceptron) (a : Nat)
    (h : (p.trainingSampleCounter + 1) % 5 ≠ 0) :
    TrainOnEviction p a = afterGate p := by
  have hb : ((p.trainingSampleCounter + 1) % 5 == 0) = false :=
    beq_eq_false_iff_ne.mpr h
  unfold TrainOnEviction shouldTrain afterGate
  simp [hb]

lemma Access_reject (p : Perceptron) (a : Nat)
    (h : (p.trainingSampleCounter + 1) % 5 ≠ 0) :
    Access p a = afterGate p := by
  have hb : ((p.trainingSampleCounter + 1) % 5 == 0) = false :=
    beq_eq_false_iff_ne.mpr h
  unfold Access shouldTrain afterGate
  simp [hb]

lemma TrainOnHit_fire_cached (p : Perceptron) (a : Nat)
    (h : (p.trainingSampleCounter + 1) % 5 = 0) (ha : p.lastPredictionAddr = a) :
    TrainOnHit p a =
      trainWithSum (afterGate p) a
        (decide (p.lastPredictionSum ≥ p.threshold)) p.lastPredictionSum true := by
  have hb : ((p.trainingSampleCounter + 1) % 5 == 0) = true := beq_iff_eq.mpr h
  unfold TrainOnHit shouldTrain afterGate
  simp [hb, ha]

lemma TrainOnEviction_fire_cached (p : Perceptron) (a : Nat)
    (h : (p.trainingSampleCounter + 1) % 5 = 0) (ha : p.lastPredictionAddr = a) :
    TrainOnEviction p a =
      trainWithSum (afterGate p) a
        (decide (p.lastPredictionSum ≥ p.threshold)) p.lastPredictionSum false := by
  have hb : ((p.trainingSampleCounter + 1) % 5 == 0) = true := beq_iff_eq.mpr h
  unfold TrainOnEviction shouldTrain afterGate
  simp [hb, ha]

lemma Access_fire_cached (p : Perceptron) (a : Nat)
    (h : (p.trainingSampleCounter + 1) % 5 = 0) (ha : p.lastPredictionAddr = a) :
    Access p a =
      trainWithSum (afterGate p) a
        (decide (p.lastPredictionSum ≥ p.threshold)) p.lastPredictionSum true := by
  have hb : ((p.trainingSampleCounter + 1) % 5 == 0) = true := beq_iff_eq.mpr h
  unfold Access shouldTrain afterGate
  simp [hb, ha]

lemma TrainOnHit_fire_recompute (p : Perceptron) (a : Nat)
    (h : (p.trainingSampleCounter + 1) % 5 = 0) (ha : p.lastPredictionAddr ≠ a) :
    TrainOnHit p a =
      trainWithSum (afterGate p) a
        (decide (calculatePredictionSum p a ≥ p.threshold))
        (calculatePredictionSum p a) true := by
  have hb : ((p.trainingSampleCounter + 1) % 5 == 0) = true := beq_iff_eq.mpr h
  unfold TrainOnHit shouldTrain afterGate
  simp [hb, ha]
  rfl

lemma TrainOnEviction_fire_recompute (p : Perceptron) (a : Nat)
    (h : (p.trainingSampleCounter + 1) % 5 = 0) (ha : p.lastPredictionAddr ≠ a) :
    TrainOnEviction p a =
      trainWithSum (afterGate p) a
        (decide (calculatePredictionSum p a ≥ p.threshold))
        (calculatePredictionSum p a) false := by
  have hb : ((p.trainingSampleCounter + 1) % 5 == 0) = true := beq_iff_eq.mpr h
  unfold TrainOnEviction shouldTrain afterGate
  simp [hb, ha]
  rfl

lemma Access_fire_recompute (p : Perceptron) (a : Nat)
    (h : (p.trainingSampleCounter + 1) % 5 = 0) (ha : p.lastPredictionAddr ≠ a) :
    Access p a =
      trainWithSum (afterGate p) a
        (decide (calculatePredictionSum p a ≥ p.threshold))
        (calculatePredictionSum p a) true := by
  have hb : ((p.trainingSampleCounter + 1) % 5 == 0) = true := beq_iff_eq.mpr h
  unfold Access shouldTrain afterGate
  simp [hb, ha]
  rfl

lemma TrainOnHit_counter (p : Perceptron) (a : Nat) :
    (TrainOnHit p a).trainingSampleCounter = p.trainingSampleCounter + 1 := by
  by_cases h : (p.trainingSampleCounter + 1) % 5 = 0
  · by_cases ha : p.lastPredictionAddr = a
    · rw [TrainOnHit_fire_cached p a h ha]; rfl
    · rw [TrainOnHit_fire_recompute p a h ha]; rfl
  · rw [TrainOnHit_reject p a h]; rfl

lemma TrainOnEviction_counter (p : Perceptron) (a : Nat) :
    (TrainOnEviction p a).trainingSampleCounter = p.trainingSampleCounter + 1 := by
  by_cases h : (p.trainingSampleCounter + 1) % 5 = 0
  · by_cases ha : p.lastPredictionAddr = a
    · rw [TrainOnEviction_fire_cached p a h ha]; rfl
    · rw [TrainOnEviction_fire_recompute p a h ha]; rfl
  · rw [TrainOnEviction_reject p a h]; rfl

lemma Access_counter (p : Perceptron) (a : Nat) :
    (Access p a).trainingSampleCounter = p.trainingSampleCounter + 1 := by
  by_cases h : (p.trainingSampleCounter + 1) % 5 = 0
  · by_cases ha : p.lastPredictionAddr = a
    · rw [Access_fire_cached p a h ha]; rfl
    · rw [Access_fire_recompute p a h ha]; rfl
  · rw [Access_reject p a h]; rfl

lemma TrainOnHit_weights_skip (p : Perceptron) (a : Nat)
    (h : (p.trainingSampleCounter + 1) % 5 ≠ 0) :
    (TrainOnHit p a).weights = p.weights := by
  rw [TrainOnHit_reject p a h]; rfl

lemma TrainOnEviction_weights_skip (p : Perceptron) (a : Nat)
    (h : (p.trainingSampleCounter + 1) % 5 ≠ 0) :
    (TrainOnEviction p a).weights = p.weights := by
  rw [TrainOnEviction_reject p a h]; rfl

lemma Access_weights_skip (p : Perceptron) (a : Nat)
    (h : (p.trainingSampleCounter + 1) % 5 ≠ 0) :
    (Access p a).weights = p.weights := by
  rw [Access_reject p a h]; rfl

lemma TrainOnHit_stats (p : Perceptron) (a : Nat) :
    (TrainOnHit p a).totalPredictions = p.totalPredictions ∧
      p.correctPredictions ≤ (TrainOnHit p a).correctPredictions ∧
      (TrainOnHit p a).correctPredictions ≤ p.correctPredictions + 1 ∧
      ((p.trainingSampleCounter + 1) % 5 ≠ 0 →
        (TrainOnHit p a).correctPredictions = p.correctPredictions) := by
  by_cases h : (p.trainingSampleCounter + 1) % 5 = 0
  · by_cases ha : p.lastPredictionAddr = a
    · rw [TrainOnHit_fire_cached p a h ha]
      exact ⟨rfl, (trainWithSum_correct_bounds (afterGate p) a _ _ _).1,
        (trainWithSum_correct_bounds (afterGate p) a _ _ _).2,
        fun hc => absurd h hc⟩
    · rw [TrainOnHit_fire_recompute p a h ha]
      exact ⟨rfl, (trainWithSum_correct_bounds (afterGate p) a _ _ _).1,
        (trainWithSum_correct_bounds (afterGate p) a _ _ _).2,
        fun hc => absurd h hc⟩
  · rw [TrainOnHit_reject p a h]
    exact ⟨rfl, le_refl _,
      by show p.correctPredictions ≤ p.correctPredictions + 1; omega,
      fun _ => rfl⟩

lemma TrainOnEviction_stats (p : Perceptron) (a : Nat) :
    (TrainOnEviction p a).totalPredictions = p.totalPredictions ∧
      p.correctPredictions ≤ (TrainOnEviction p a).correctPredictions ∧
      (TrainOnEviction p a).correctPredictions ≤ p.correctPredictions + 1 ∧
      ((p.trainingSampleCounter + 1) % 5 ≠ 0 →
        (TrainOnEviction p a).correctPredictions = p.correctPredictions) := by
  by_cases h : (p.trainingSampleCounter + 1) % 5 = 0
  · by_cases ha : p.lastPredictionAddr = a
    · rw [TrainOnEviction_fire_cached p a h ha]
      exact ⟨rfl, (trainWithSum_correct_bounds (afterGate p) a _ _ _).1,
        (trainWithSum_correct_bounds (afterGate p) a _ _ _).2,
        fun hc => absurd h hc⟩
    · rw [TrainOnEviction_fire_recompute p a h ha]
      exact ⟨rfl, (trainWithSum_correct_bounds (afterGate p) a _ _ _).1,
        (trainWithSum_correct_bounds (afterGate p) a _ _ _).2,
        fun hc => absurd h hc⟩
  · rw [TrainOnEviction_reject p a h]
    exact ⟨rfl, le_refl _,
      by show p.correctPredictions ≤ p.correctPredictions + 1; omega,
      fun _ => rfl⟩

lemma Access_stats (p : Perceptron) (a : Nat) :
    (Access p a).totalPredictions = p.totalPredictions ∧
      p.correctPredictions ≤ (Access p a).correctPredictions ∧
      (Access p a).correctPredictions ≤ p.correctPredictions + 1 ∧
      ((p.trainingSampleCounter + 1) % 5 ≠ 0 →
        (Access p a).correctPredictions = p.correctPredictions) := by
  by_cases h : (p.trainingSampleCounter + 1) % 5 = 0
  · by_cases ha : p.lastPredictionAddr = a
    · rw [Access_fire_cached p a h ha]
      exact ⟨rfl, (trainWithSum_correct_bounds (afterGate p) a _ _ _).1,
        (trainWithSum_correct_bounds (afterGate p) a _ _ _).2,
        fun hc => absurd h hc⟩
    · rw [Access_fire_recompute p a h ha]
      exact ⟨rfl, (trainWithSum_correct_bounds (afterGate p) a _ _ _).1,
        (trainWithSum_correct_bounds (afterGate p) a _ _ _).2,
        fun hc => absurd h hc⟩
  · rw [Access_reject p a h]
    exact ⟨rfl, le_refl _,
      by show p.correctPredictions ≤ p.correctPredictions + 1; omega,
      fun _ => rfl⟩

/-! ### Claim C10 -/

/-- C10: when total_predictions is 0, GetAccuracy returns exactly 0
instead of dividing by zero, and GetStats returns the two counters
together with the very same accuracy value as GetAccuracy. -/
theorem c10_accuracy_zero_guard (p : Perceptron) :
    (p.totalPredictions = 0 → GetAccuracy p = 0) ∧
      GetStats p = (p.totalPredictions, p.correctPredictions, GetAccuracy p) := by
  constructor
  · intro h
    simp [GetAccuracy, h]
  · rfl

theorem c10_accuracy_zero_guard_witness :
    GetAccuracy NewPerceptronVictimFinder = 0 ∧
      GetStats NewPerceptronVictimFinder =
        (NewPerceptronVictimFinder.totalPredictions,
          NewPerceptronVictimFinder.correctPredictions,
          GetAccuracy NewPerceptronVictimFinder) :=
  ⟨(c10_accuracy_zero_guard NewPerceptronVictimFinder).1 rfl,
    (c10_accuracy_zero_guard NewPerceptronVictimFinder).2⟩

/-! ### Claim C6 -/

/-- C6: the sampling counter advances by exactly one on every training
call; a training call whose post-incremented counter is not divisible
by 5 leaves the weights array unchanged; from a fresh predictor, four
consecutive training calls leave the weights untouched and the fifth
applies the weight update with the counter advanced by 5 (shown on
TrainOnEviction of address 1, which changes weights[0] from 0 to 2). -/
theorem c6_sampling_gate :
    (∀ (p : Perceptron) (a : Nat),
        (TrainOnHit p a).trainingSampleCounter = p.trainingSampleCounter + 1 ∧
        (TrainOnEviction p a).trainingSampleCounter = p.trainingSampleCounter + 1 ∧
        (Access p a).trainingSampleCounter = p.trainingSampleCounter + 1) ∧
    (∀ (p : Perceptron) (a : Nat), (p.trainingSampleCounter + 1) % 5 ≠ 0 →
        (TrainOnHit p a).weights = p.weights ∧
        (TrainOnEviction p a).weights = p.weights) ∧
    ((run NewPerceptronVictimFinder (List.replicate 4 (Op.evict 1))).weights =
        NewPerceptronVictimFinder.weights ∧
      (run NewPerceptronVictimFinder (List.replicate 5 (Op.evict 1))).weights 0 = 2 ∧
      (run NewPerceptronVictimFinder
          (List.replicate 5 (Op.evict 1))).trainingSampleCounter = 5) := by
  refine ⟨fun p a => ⟨TrainOnHit_counter p a, TrainOnEviction_counter p a,
      Access_counter p a⟩,
    fun p a h => ⟨TrainOnHit_weights_skip p a h, TrainOnEviction_weights_skip p a h⟩,
    rfl, by decide, by decide⟩

theorem c6_sampling_gate_witness :
    (TrainOnHit NewPerceptronVictimFinder 3).trainingSampleCounter = 1 ∧
      (TrainOnHit NewPerceptronVictimFinder 3).weights =
        NewPerceptronVictimFinder.weights :=
  ⟨(c6_sampling_gate.1 NewPerceptronVictimFinder 3).1,
    (c6_sampling_gate.2.1 NewPerceptronVictimFinder 3 (by decide)).1⟩

/-! ### Claim C5 -/

/-- C5, counterexample: after four TrainOnEviction calls from a fresh
predictor, the cached last_addr (0) differs from the trained address
(1), yet the fifth training call still changes weights[0] — the code
recomputes the score and trains rather than skipping. -/
theorem c5_mismatch_counterexample :
    (run NewPerceptronVictimFinder
        (List.replicate 4 (Op.evict 1))).lastPredictionAddr ≠ 1 ∧
      (TrainOnEviction (run NewPerceptronVictimFinder
          (List.replicate 4 (Op.evict 1))) 1).weights 0 ≠
        (run NewPerceptronVictimFinder
          (List.replicate 4 (Op.evict 1))).weights 0 := by
  constructor <;> decide

/-- C5, amended: a training call with addr different from last_addr is
not skipped: the sampling counter always advances; when the gate
rejects the call nothing else changes, and when the gate admits it the
predictor falls back to recomputing the prediction sum from its
current weights and trains with that recomputed sum. -/
theorem c5_mismatch_recomputes (p : Perceptron) (a : Nat)
    (hne : p.lastPredictionAddr ≠ a) :
    ((p.trainingSampleCounter + 1) % 5 ≠ 0 →
      TrainOnHit p a = afterGate p ∧ TrainOnEviction p a = afterGate p) ∧
    ((p.trainingSampleCounter + 1) % 5 = 0 →
      TrainOnHit p a =
        trainWithSum (afterGate p) a
          (decide (calculatePredictionSum p a ≥ p.threshold))
          (calculatePredictionSum p a) true ∧
      TrainOnEviction p a =
        trainWithSum (afterGate p) a
          (decide (calculatePredictionSum p a ≥ p.threshold))
          (calculatePredictionSum p a) false) :=
  ⟨fun h => ⟨TrainOnHit_reject p a h, TrainOnEviction_reject p a h⟩,
    fun h => ⟨TrainOnHit_fire_recompute p a h hne,
      TrainOnEviction_fire_recompute p a h hne⟩⟩

theorem c5_mismatch_recomputes_witness :
    TrainOnEviction
        { NewPerceptronVictimFinder with trainingSampleCounter := 4 } 1 =
      trainWithSum
        (afterGate { NewPerceptronVictimFinder with trainingSampleCounter := 4 }) 1
        (decide (calculatePredictionSum
            { NewPerceptronVictimFinder with trainingSampleCounter := 4 } 1 ≥
          { NewPerceptronVictimFinder with trainingSampleCounter := 4 }.threshold))
        (calculatePredictionSum
          { NewPerceptronVictimFinder with trainingSampleCounter := 4 } 1) false :=
  ((c5_mismatch_recomputes
      { NewPerceptronVictimFinder with trainingSampleCounter := 4 } 1
      (by decide)).2 (by decide)).2

/-! ### Claim C4 -/

/-- C4, counterexample: five TrainOnEviction calls from a fresh
predictor (no FindVictimWithContext call at all) leave
total_predictions at 0 but drive correct_predictions to 1, so
correct_predictions ≤ total_predictions fails. -/
theorem c4_counter_counterexample :
    ¬ ((run NewPerceptronVictimFinder
          (List.replicate 5 (Op.evict 0))).correctPredictions ≤
        (run NewPerceptronVictimFinder
          (List.replicate 5 (Op.evict 0))).totalPredictions) := by
  decide

/-! ### Claim C2: weight range invariant -/

lemma trainWeights_range (w : Nat → Int) (addr : Nat) (lr : Int) (b : Bool)
    (hw : WeightsInRange w) (hlr0 : 0 ≤ lr) (hlr1 : lr ≤ 1073741824) :
    WeightsInRange (trainWeights w addr lr b) := by
  intro i hi
  have hwi := hw i hi
  unfold trainWeights
  split
  · split
    · rw [wrap32_eq_self (by omega) (by omega)]
      unfold max32
      split <;> omega
    · rw [wrap32_eq_self (by omega) (by omega)]
      unfold min32
      split <;> omega
  · exact hwi

lemma trainWithSum_weights_range (p : Perceptron) (a : Nat) (pr : Bool)
    (s : Int) (b : Bool) (hw : WeightsInRange p.weights)
    (hlr0 : 0 ≤ p.learningRate) (hlr1 : p.learningRate ≤ 1073741824) :
    WeightsInRange (trainWithSum p a pr s b).weights := by
  unfold trainWithSum
  dsimp only
  split
  · exact trainWeights_range p.weights a p.learningRate b hw hlr0 hlr1
  · exact hw

/-- The invariant carried through operation traces for C2. -/
def GoodState (p : Perceptron) : Prop :=
  WeightsInRange p.weights ∧ 0 ≤ p.learningRate ∧ p.learningRate ≤ 1073741824

lemma applyOp_good (p : Perceptron) (o : Op) (h : GoodState p) :
    GoodState (applyOp p o) := by
  obtain ⟨hw, hl0, hl1⟩ := h
  cases o with
  | score set ctx => exact ⟨hw, hl0, hl1⟩
  | hit a =>
    show GoodState (TrainOnHit p a)
    by_cases h5 : (p.trainingSampleCounter + 1) % 5 = 0
    · by_cases ha : p.lastPredictionAddr = a
      · rw [TrainOnHit_fire_cached p a h5 ha]
        exact ⟨trainWithSum_weights_range (afterGate p) a _ _ _ hw hl0 hl1, hl0, hl1⟩
      · rw [TrainOnHit_fire_recompute p a h5 ha]
        exact ⟨trainWithSum_weights_range (afterGate p) a _ _ _ hw hl0 hl1, hl0, hl1⟩
    · rw [TrainOnHit_reject p a h5]
      exact ⟨hw, hl0, hl1⟩
  | evict a =>
    show GoodState (TrainOnEviction p a)
    by_cases h5 : (p.trainingSampleCounter + 1) % 5 = 0
    · by_cases ha : p.lastPredictionAddr = a
      · rw [TrainOnEviction_fire_cached p a h5 ha]
        exact ⟨trainWithSum_weights_range (afterGate p) a _ _ _ hw hl0 hl1, hl0, hl1⟩
      · rw [TrainOnEviction_fire_recompute p a h5 ha]
        exact ⟨trainWithSum_weights_range (afterGate p) a _ _ _ hw hl0 hl1, hl0, hl1⟩
    · rw [TrainOnEviction_reject p a h5]
      exact ⟨hw, hl0, hl1⟩
  | access a =>
    show GoodState (Access p a)
    by_cases h5 : (p.trainingSampleCounter + 1) % 5 = 0
    · by_cases ha : p.lastPredictionAddr = a
      · rw [Access_fire_cached p a h5 ha]
        exact ⟨trainWithSum_weights_range (afterGate p) a _ _ _ hw hl0 hl1, hl0, hl1⟩
      · rw [Access_fire_recompute p a h5 ha]
        exact ⟨trainWithSum_weights_range (afterGate p) a _ _ _ hw hl0 hl1, hl0, hl1⟩
    · rw [Access_reject p a h5]
      exact ⟨hw, hl0, hl1⟩

lemma run_good (ops : List Op) : ∀ p : Perceptron, GoodState p →
    GoodState (run p ops) := by
  induction ops with
  | nil => exact fun p h => h
  | cons o rest ih => exact fun p h => ih (applyOp p o) (applyOp_good p o h)

/-- C2: from the freshly constructed predictor, every sequence of
scoring, victim-selection and training operations keeps every weight
weights[i], i < 32, inside [-32, +31]: every update is clamped. -/
lemma good_new : GoodState NewPerceptronVictimFinder :=
  ⟨fun _ _ => ⟨show (-32 : Int) ≤ 0 by norm_num, show (0 : Int) ≤ 31 by norm_num⟩,
    show (0 : Int) ≤ 2 by norm_num, show (2 : Int) ≤ 1073741824 by norm_num⟩

theorem c2_weights_always_in_range (ops : List Op) (i : Nat) (hi : i < 32) :
    -32 ≤ (run NewPerceptronVictimFinder ops).weights i ∧
      (run NewPerceptronVictimFinder ops).weights i ≤ 31 :=
  (run_good ops NewPerceptronVictimFinder good_new).1 i hi

theorem c2_weights_always_in_range_witness :
    -32 ≤ (run NewPerceptronVictimFinder
        (List.replicate 5 (Op.evict 3))).weights 0 ∧
      (run NewPerceptronVictimFinder
        (List.replicate 5 (Op.evict 3))).weights 0 ≤ 31 :=
  c2_weights_always_in_range (List.replicate 5 (Op.evict 3)) 0 (by decide)

/-! ### Claim C4, amended bound -/

lemma run_stats_inv (ops : List Op) : ∀ p : Perceptron,
    0 ≤ p.correctPredictions →
    p.correctPredictions ≤
      p.totalPredictions + ((p.trainingSampleCounter / 5 : Nat) : Int) →
    0 ≤ (run p ops).correctPredictions ∧
      (run p ops).correctPredictions ≤
        (run p ops).totalPredictions +
          (((run p ops).trainingSampleCounter / 5 : Nat) : Int) := by
  induction ops with
  | nil => exact fun p h1 h2 => ⟨h1, h2⟩
  | cons o rest ih =>
    intro p h1 h2
    refine ih (applyOp p o) ?_ ?_
    case _ =>
      cases o with
      | score set ctx => exact h1
      | hit a => exact le_trans h1 (TrainOnHit_stats p a).2.1
      | evict a => exact le_trans h1 (TrainOnEviction_stats p a).2.1
      | access a => exact le_trans h1 (Access_stats p a).2.1
    case _ =>
      cases o with
      | score set ctx =>
        show p.correctPredictions ≤ p.totalPredictions + 1 +
          ((p.trainingSampleCounter / 5 : Nat) : Int)
        omega
      | hit a =>
        show (TrainOnHit p a).correctPredictions ≤ (TrainOnHit p a).totalPredictions +
          (((TrainOnHit p a).trainingSampleCounter / 5 : Nat) : Int)
        obtain ⟨ht, hlo, hhi, hskip⟩ := TrainOnHit_stats p a
        have hc := TrainOnHit_counter p a
        by_cases h5 : (p.trainingSampleCounter + 1) % 5 = 0
        · rw [ht, hc]; omega
        · rw [ht, hc, hskip h5]; omega
      | evict a =>
        show (TrainOnEviction p a).correctPredictions ≤ (TrainOnEviction p a).totalPredictions +
          (((TrainOnEviction p a).trainingSampleCounter / 5 : Nat) : Int)
        obtain ⟨ht, hlo, hhi, hskip⟩ := TrainOnEviction_stats p a
        have hc := TrainOnEviction_counter p a
        by_cases h5 : (p.trainingSampleCounter + 1) % 5 = 0
        · rw [ht, hc]; omega
        · rw [ht, hc, hskip h5]; omega
      | access a =>
        show (Access p a).correctPredictions ≤ (Access p a).totalPredictions +
          (((Access p a).trainingSampleCounter / 5 : Nat) : Int)
        obtain ⟨ht, hlo, hhi, hskip⟩ := Access_stats p a
        have hc := Access_counter p a
        by_cases h5 : (p.trainingSampleCounter + 1) % 5 = 0
        · rw [ht, hc]; omega
        · rw [ht, hc, hskip h5]; omega

/-- C4, amended: along every operation trace from a fresh predictor,
correct_predictions stays non-negative and is bounded by
total_predictions plus the number of admitted training calls
(train_tick / 5); the original bound correct ≤ total alone fails when
training calls are not matched by prior predictions. -/
theorem c4_amended_counter_bound (ops : List Op) :
    0 ≤ (run NewPerceptronVictimFinder ops).correctPredictions ∧
      (run NewPerceptronVictimFinder ops).correctPredictions ≤
        (run NewPerceptronVictimFinder ops).totalPredictions +
          (((run NewPerceptronVictimFinder ops).trainingSampleCounter / 5 : Nat) :
            Int) :=
  run_stats_inv ops NewPerceptronVictimFinder (by decide) (by decide)

/-! ### Claim C3: the prediction score is the masked weight sum -/

/-- The scoring loop truncated to its first n iterations, used to
reason about calcSumLoop (which is the n = 16 instance) by
induction. -/
def calcSumLoopN (w : Nat → Int) (addr : Nat) (off : Nat) (n : Nat) (s : Int) :
    Int :=
  (List.range n).foldl
    (fun acc i => if addr.testBit (off + i) then wrap32 (acc + w (off + i)) else acc) s

lemma calcSumLoop_eq_N (w : Nat → Int) (addr off : Nat) (s : Int) :
    calcSumLoop w addr off s = calcSumLoopN w addr off 16 s := rfl

lemma calcSumLoopN_succ (w : Nat → Int) (addr off n : Nat) (s : Int) :
    calcSumLoopN w addr off (n + 1) s =
      if addr.testBit (off + n) then
        wrap32 (calcSumLoopN w addr off n s + w (off + n))
      else calcSumLoopN w addr off n s := by
  unfold calcSumLoopN
  rw [List.range_succ, List.foldl_append]
  rfl

lemma calcSumLoopN_spec (w : Nat → Int) (addr off : Nat)
    (hw : WeightsInRange w) (hoff : off + 16 ≤ 32) :
    ∀ n, n ≤ 16 → ∀ s : Int, -1073741824 ≤ s → s ≤ 1073741824 →
      calcSumLoopN w addr off n s =
          s + ∑ i in Finset.range n,
            (if addr.testBit (off + i) then w (off + i) else 0) ∧
        s - 32 * n ≤ calcSumLoopN w addr off n s ∧
        calcSumLoopN w addr off n s ≤ s + 31 * n := by
  intro n
  induction n with
  | zero =>
    intro _ s _ _
    refine ⟨by simp [calcSumLoopN], by simp [calcSumLoopN], by simp [calcSumLoopN]⟩
  | succ n ih =>
    intro hn s hs1 hs2
    obtain ⟨heq, hlo, hhi⟩ := ih (by omega) s hs1 hs2
    have hwn := hw (off + n) (by omega)
    rw [calcSumLoopN_succ, Finset.sum_range_succ]
    by_cases hb : addr.testBit (off + n) = true
    · rw [if_pos hb, if_pos hb,
        wrap32_eq_self (by omega) (by omega)]
      refine ⟨by omega, by omega, by omega⟩
    · rw [if_neg hb, if_neg hb]
      refine ⟨by omega, by omega, by omega⟩

lemma calculatePredictionSum_spec (p : Perceptron) (addr : Nat)
    (hw : WeightsInRange p.weights) :
    calculatePredictionSum p addr =
      ∑ i in Finset.range 32, (if addr.testBit i then p.weights i else 0) := by
  obtain ⟨e1, lo1, hi1⟩ :=
    calcSumLoopN_spec p.weights addr 0 hw (by omega) 16 (by omega) 0
      (by norm_num) (by norm_num)
  obtain ⟨e2, _, _⟩ :=
    calcSumLoopN_spec p.weights addr 16 hw (by omega) 16 (by omega)
      (calcSumLoopN p.weights addr 0 16 0) (by omega) (by omega)
  have key : (∑ i in Finset.range 32, (if addr.testBit i then p.weights i else 0)) =
      (∑ i in Finset.range 16, (if addr.testBit i then p.weights i else 0)) +
        ∑ i in Finset.range 16,
          (if addr.testBit (16 + i) then p.weights (16 + i) else 0) := by
    have h := Finset.sum_range_add
      (fun i => if addr.testBit i then p.weights i else 0) 16 16
    norm_num at h
    exact h
  show calcSumLoop p.weights addr 16 (calcSumLoop p.weights addr 0 0) = _
  rw [calcSumLoop_eq_N, calcSumLoop_eq_N, e2, key]
  simp only [Nat.zero_add] at e1
  rw [e1]
  omega

lemma calcSumLoopN_addr_zero (w : Nat → Int) (off : Nat) (s : Int) :
    ∀ n, calcSumLoopN w 0 off n s = s := by
  intro n
  induction n with
  | zero => simp [calcSumLoopN]
  | succ n ih => rw [calcSumLoopN_succ, Nat.zero_testBit, if_neg (by simp), ih]

lemma calculatePredictionSum_addr_zero (p : Perceptron) :
    calculatePredictionSum p 0 = 0 := by
  show calcSumLoop p.weights 0 16 (calcSumLoop p.weights 0 0 0) = 0
  rw [calcSumLoop_eq_N, calcSumLoop_eq_N, calcSumLoopN_addr_zero,
    calcSumLoopN_addr_zero]

lemma calculatePredictionSum_fresh (addr : Nat) :
    calculatePredictionSum NewPerceptronVictimFinder addr = 0 := by
  rw [calculatePredictionSum_spec NewPerceptronVictimFinder addr good_new.1]
  have hz : ∀ i, NewPerceptronVictimFinder.weights i = 0 := fun _ => rfl
  simp [hz]

/-- C3: for every address, the prediction score is the sum of
weights[i] over exactly the set bits i < 32 of the address (low 16
bits then the next 16); in particular score of address 0 is 0, a fresh
predictor scores 0 for every address, and the score of 0xFFFF_FFFF is
the sum of all 32 weights.  The weights are assumed to be in their
documented range (which holds in every reachable state, claim C2), so
that the int32 accumulation cannot wrap. -/
theorem c3_score_is_masked_sum (p : Perceptron) (addr : Nat)
    (hw : WeightsInRange p.weights) :
    calculatePredictionSum p addr =
        (∑ i in Finset.range 32, (if addr.testBit i then p.weights i else 0)) ∧
      calculatePredictionSum p 0 = 0 ∧
      calculatePredictionSum NewPerceptronVictimFinder addr = 0 ∧
      calculatePredictionSum p 4294967295 = ∑ i in Finset.range 32, p.weights i := by
  refine ⟨calculatePredictionSum_spec p addr hw,
    calculatePredictionSum_addr_zero p,
    calculatePredictionSum_fresh addr, ?_⟩
  rw [calculatePredictionSum_spec p 4294967295 hw]
  refine Finset.sum_congr rfl ?_
  intro i hi
  rw [Finset.mem_range] at hi
  have h32 : (4294967295 : Nat) = 2 ^ 32 - 1 := by norm_num
  have ht : Nat.testBit 4294967295 i = true := by
    rw [h32, Nat.testBit_two_pow_sub_one]
    simpa using hi
  simp [ht]

theorem c3_score_is_masked_sum_witness :
    calculatePredictionSum NewPerceptronVictimFinder 11 =
        (∑ i in Finset.range 32,
          (if (11 : Nat).testBit i then NewPerceptronVictimFinder.weights i
            else 0)) ∧
      calculatePredictionSum NewPerceptronVictimFinder 0 = 0 ∧
      calculatePredictionSum NewPerceptronVictimFinder 11 = 0 ∧
      calculatePredictionSum NewPerceptronVictimFinder 4294967295 =
        ∑ i in Finset.range 32, NewPerceptronVictimFinder.weights i :=
  c3_score_is_masked_sum NewPerceptronVictimFinder 11 good_new.1

/-! ### Claim C9: saturation under repeated no-reuse training -/

lemma trainWithSum_weights_of_cond (p : Perceptron) (a : Nat) (pr : Bool)
    (s : Int) (b : Bool) (h : pr ≠ !b ∨ abs32 s < p.theta) :
    (trainWithSum p a pr s b).weights = trainWeights p.weights a p.learningRate b := by
  unfold trainWithSum
  dsimp only
  rw [if_pos h]

lemma min32_sat_step (k : Nat) :
    min32 31 (wrap32 (min32 31 (2 * (k : Int)) + 2)) =
      min32 31 (2 * ((k + 1 : Nat) : Int)) := by
  have h0 : (0 : Int) ≤ 2 * (k : Int) := by positivity
  have hmin : min32 31 (2 * (k : Int)) ≤ 31 ∧ 0 ≤ min32 31 (2 * (k : Int)) := by
    unfold min32
    split <;> omega
  rw [wrap32_eq_self (by omega) (by omega)]
  unfold min32
  push_cast
  split <;> split <;> omega

/-- The state reached by scoring ctx.address once on a fresh default
predictor and then issuing n TrainOnEviction calls for that address. -/
def evictTrace (set : CacheSet) (ctx : VictimContext) (n : Nat) : Perceptron :=
  run (FindVictimWithContext NewPerceptronVictimFinder set ctx).2
    (List.replicate n (Op.evict ctx.address))

lemma evictTrace_succ (set : CacheSet) (ctx : VictimContext) (n : Nat) :
    evictTrace set ctx (n + 1) =
      TrainOnEviction (evictTrace set ctx n) ctx.address := by
  unfold evictTrace run
  rw [show List.replicate (n + 1) (Op.evict ctx.address) =
      List.replicate n (Op.evict ctx.address) ++ [Op.evict ctx.address] from
    List.replicate_succ' .., List.foldl_append]
  rfl

lemma evictTrace_fields (set : CacheSet) (ctx : VictimContext) :
    ∀ n : Nat,
      (evictTrace set ctx n).trainingSampleCounter = n ∧
      (evictTrace set ctx n).lastPredictionAddr = ctx.address ∧
      (evictTrace set ctx n).lastPredictionSum = 0 ∧
      (evictTrace set ctx n).threshold = 0 ∧
      (evictTrace set ctx n).theta = 32 ∧
      (evictTrace set ctx n).learningRate = 2 ∧
      ∀ i, (evictTrace set ctx n).weights i =
        if i < 32 ∧ ctx.address.testBit i = true then
          min32 31 (2 * ((n / 5 : Nat) : Int))
        else 0 := by
  intro n
  induction n with
  | zero =>
    refine ⟨rfl, rfl, calculatePredictionSum_fresh ctx.address, rfl, rfl, rfl, ?_⟩
    intro i
    show (0 : Int) = _
    split <;> norm_num [min32]
  | succ n ih =>
    obtain ⟨ihc, iha, ihs, ihthr, ihth, ihlr, ihw⟩ := ih
    rw [evictTrace_succ]
    by_cases h5 : (n + 1) % 5 = 0
    · have hfire : ((evictTrace set ctx n).trainingSampleCounter + 1) % 5 = 0 := by
        rw [ihc]; exact h5
      rw [TrainOnEviction_fire_cached _ _ hfire iha]
      have hdiv : (n + 1) / 5 = n / 5 + 1 := by omega
      have hthA : (afterGate (evictTrace set ctx n)).theta = 32 := ihth
      have hlrA : (afterGate (evictTrace set ctx n)).learningRate = 2 := ihlr
      have hcond :
          (decide ((evictTrace set ctx n).lastPredictionSum ≥
              (evictTrace set ctx n).threshold)) ≠ (!false) ∨
            abs32 (evictTrace set ctx n).lastPredictionSum <
              (afterGate (evictTrace set ctx n)).theta := by
        right
        rw [ihs, hthA]
        norm_num [abs32]
      have hw := trainWithSum_weights_of_cond (afterGate (evictTrace set ctx n))
        ctx.address _ _ false hcond
      refine ⟨?_, ?_, ?_, ?_, ?_, ?_, ?_⟩
      · rw [trainWithSum_counter]
        show (evictTrace set ctx n).trainingSampleCounter + 1 = n + 1
        rw [ihc]
      · exact iha
      · exact ihs
      · exact ihthr
      · exact ihth
      · exact ihlr
      · intro i
        show (trainWithSum (afterGate (evictTrace set ctx n)) ctx.address _ _
          false).weights i = _
        rw [hw, hlrA]
        unfold trainWeights
        by_cases hbit : i < 32 ∧ ctx.address.testBit i = true
        · rw [if_pos hbit, if_pos hbit]
          have hwi : (afterGate (evictTrace set ctx n)).weights i =
              min32 31 (2 * ((n / 5 : Nat) : Int)) := by
            show (evictTrace set ctx n).weights i = _
            rw [ihw i, if_pos hbit]
          rw [if_neg (by simp), hwi, hdiv]
          exact min32_sat_step (n / 5)
        · rw [if_neg hbit, if_neg hbit]
          show (evictTrace set ctx n).weights i = 0
          rw [ihw i, if_neg hbit]
    · have hrej : ((evictTrace set ctx n).trainingSampleCounter + 1) % 5 ≠ 0 := by
        rw [ihc]; exact h5
      rw [TrainOnEviction_reject _ _ hrej]
      have hdiv : (n + 1) / 5 = n / 5 := by omega
      refine ⟨?_, iha, ihs, ihthr, ihth, ihlr, ?_⟩
      · show (evictTrace set ctx n).trainingSampleCounter + 1 = n + 1
        rw [ihc]
      · intro i
        show (evictTrace set ctx n).weights i = _
        rw [ihw i, hdiv]

/-- C9: score an address once on a fresh predictor, then train
repeatedly with (addr, reused = false): once at least 80 training
calls have been made (16 admitted by the sampling gate), every weight
whose address bit is set has been driven to +31 and stays there, and
no weight ever reaches +32 (they all stay in [-32, 31]). -/
theorem c9_no_reuse_saturation (set : CacheSet) (ctx : VictimContext)
    (n i : Nat) (hi : i < 32) :
    ((80 ≤ n ∧ ctx.address.testBit i = true) →
      (evictTrace set ctx n).weights i = 31) ∧
    (evictTrace set ctx n).weights i ≤ 31 ∧
    -32 ≤ (evictTrace set ctx n).weights i := by
  have hw := (evictTrace_fields set ctx n).2.2.2.2.2.2 i
  refine ⟨?_, ?_, ?_⟩
  · rintro ⟨hn, hbit⟩
    rw [hw, if_pos ⟨hi, hbit⟩]
    have h16 : 16 ≤ n / 5 := by omega
    unfold min32
    split <;> omega
  · rw [hw]
    split
    · unfold min32
      split <;> omega
    · omega
  · rw [hw]
    split
    · unfold min32
      have : (0 : Int) ≤ 2 * ((n / 5 : Nat) : Int) := by positivity
      split <;> omega
    · omega

theorem c9_no_reuse_saturation_witness :
    (evictTrace ⟨[], 0⟩ ⟨1, "read", 0⟩ 80).weights 0 = 31 ∧
      (evictTrace ⟨[], 0⟩ ⟨1, "read", 0⟩ 80).weights 0 ≤ 31 :=
  ⟨(c9_no_reuse_saturation ⟨[], 0⟩ ⟨1, "read", 0⟩ 80 0 (by decide)).1
      ⟨by norm_num, by decide⟩,
    (c9_no_reuse_saturation ⟨[], 0⟩ ⟨1, "read", 0⟩ 80 0 (by decide)).2.1⟩

/-! ### Claims C7 and C8: Tree-PseudoLRU recency update and victim -/

lemma testBit_setBit64 (n k j : Nat) :
    (setBit64 n k).testBit j = (n.testBit j || decide (j = k)) := by
  rw [setBit64, Nat.testBit_lor]
  by_cases h : j = k
  · subst h
    simp [Nat.testBit_two_pow_self]
  · simp [h, Nat.testBit_two_pow_of_ne (Ne.symm h)]

lemma testBit_mask64 (k j : Nat) (hk : k < 7) (hj : j < 7) :
    (mask64 k).testBit j = !decide (j = k) := by
  interval_cases k <;> interval_cases j <;> decide

lemma testBit_clearBit64 (n k j : Nat) (hk : k < 7) (hj : j < 7) :
    (clearBit64 n k).testBit j = (n.testBit j && !decide (j = k)) := by
  rw [clearBit64, Nat.testBit_land, testBit_mask64 k j hk hj]

lemma setBit64_zero_mod_two (n : Nat) : setBit64 n 0 % 2 = 1 := by
  have h : (setBit64 n 0).testBit 0 = true := by
    rw [testBit_setBit64]
    simp
  rw [Nat.testBit_zero] at h
  exact of_decide_eq_true h

lemma clearBit64_zero_mod_two (n : Nat) : clearBit64 n 0 % 2 = 0 := by
  have h : (clearBit64 n 0).testBit 0 = false := by
    rw [testBit_clearBit64 n 0 0 (by norm_num) (by norm_num)]
    simp
  rw [Nat.testBit_zero] at h
  have h2 := of_decide_eq_false h
  omega

lemma setBit64_mod_two (n k : Nat) (hk : k ≠ 0) : setBit64 n k % 2 = n % 2 := by
  have h : (setBit64 n k).testBit 0 = n.testBit 0 := by
    rw [testBit_setBit64]
    simp [Ne.symm hk]
  rw [Nat.testBit_zero, Nat.testBit_zero] at h
  have h2 := decide_eq_decide.mp h
  omega

lemma clearBit64_mod_two (n k : Nat) (hk : k ≠ 0) (hk7 : k < 7) :
    clearBit64 n k % 2 = n % 2 := by
  have h : (clearBit64 n k).testBit 0 = n.testBit 0 := by
    rw [testBit_clearBit64 n k 0 hk7 (by norm_num)]
    simp [Ne.symm hk]
  rw [Nat.testBit_zero, Nat.testBit_zero] at h
  have h2 := decide_eq_decide.mp h
  omega

/-- C7, counterexample: the claim says touch(1) on a 4-way set ends
with the pair bit (bit 1) set to 1, because way 1 is the higher member
of pair {0, 1}; the code clears bit 1 on touch(1) — starting from bit
state 0, bit 1 is 0 afterwards. -/
theorem c7_touch_counterexample :
    ¬ ((updatePseudoLRU 0 4 1).testBit 1 = true) := by
  decide

/-- C7, amended: for a 4-way set, touch(w) sets tree bit 0 to 1 iff
w ≥ 2 (as claimed), but sets the subtree bit of w's pair (bit 1 for
pair {0,1}, bit 2 for pair {2,3}) to 1 iff w is the LOWER member of
its pair (w ∈ {0, 2}), and to 0 otherwise. -/
theorem c7_touch_amended (bits w : Nat) (hw : w < 4) :
    (updatePseudoLRU bits 4 w).testBit 0 = decide (2 ≤ w) ∧
      (updatePseudoLRU bits 4 w).testBit (if w < 2 then 1 else 2) =
        decide (w = 0 ∨ w = 2) := by
  interval_cases w <;>
    simp [updatePseudoLRU, testBit_setBit64, testBit_clearBit64,
      setBit64_zero_mod_two, clearBit64_zero_mod_two, setBit64_mod_two,
      clearBit64_mod_two]

theorem c7_touch_amended_witness :
    (updatePseudoLRU 0 4 3).testBit 0 = decide (2 ≤ 3) ∧
      (updatePseudoLRU 0 4 3).testBit (if 3 < 2 then 1 else 2) =
        decide (3 = 0 ∨ 3 = 2) :=
  c7_touch_amended 0 3 (by decide)

/-- C8: for W in {2, 4, 8}, any prior PseudoLRU bit state, and any way
w < W, looking up the PseudoLRU victim right after touching w never
returns w (in fact the touch overwrites every tree bit along w's path,
so the lookup lands on w's sibling). -/
theorem c8_touched_way_not_victim (bits w : Nat) :
    (w < 2 → getPseudoLRUVictim (updatePseudoLRU bits 2 w) 2 ≠ w) ∧
      (w < 4 → getPseudoLRUVictim (updatePseudoLRU bits 4 w) 4 ≠ w) ∧
      (w < 8 → getPseudoLRUVictim (updatePseudoLRU bits 8 w) 8 ≠ w) := by
  refine ⟨fun h => ?_, fun h => ?_, fun h => ?_⟩ <;>
    (interval_cases w <;>
      simp [updatePseudoLRU, updatePseudoLRU8Way, getPseudoLRUVictim,
        getPseudoLRUVictim8Way, testBit_setBit64, testBit_clearBit64,
        setBit64_zero_mod_two, clearBit64_zero_mod_two, setBit64_mod_two,
        clearBit64_mod_two])

theorem c8_touched_way_not_victim_witness :
    getPseudoLRUVictim (updatePseudoLRU 9 4 3) 4 ≠ 3 :=
  (c8_touched_way_not_victim 9 3).2.1 (by decide)

/-! ### Claim C1: victim selection is total and falls back to block 0 -/

lemma mem_of_getElem?_eq_some {l : List Block} {i : Nat} {b : Block}
    (h : l[i]? = some b) : b ∈ l := by
  rw [List.getElem?_eq_some] at h
  obtain ⟨hi, hEq⟩ := h
  exact hEq ▸ List.getElem_mem hi

lemma unlocked_fallback_spec (l : List Block) (hne : l ≠ []) :
    ∃ b, (match l.find? (fun c => !c.isLocked) with
        | some c => some c
        | none => l.head?) = some b ∧ b ∈ l := by
  cases hfind : l.find? (fun c => !c.isLocked) with
  | some c => exact ⟨c, rfl, List.mem_of_find?_eq_some hfind⟩
  | none =>
    refine ⟨l.head hne, ?_, List.head_mem hne⟩
    exact List.head?_eq_head hne

lemma find?_unlocked_none (l : List Block) (h : ∀ b ∈ l, b.isLocked = true) :
    l.find? (fun c => !c.isLocked) = none :=
  List.find?_eq_none.mpr (fun x hx => by simp [h x hx])

lemma find?_invalid_none (l : List Block) (h : ∀ b ∈ l, b.isLocked = true) :
    l.find? (fun c => !c.isValid && !c.isLocked) = none :=
  List.find?_eq_none.mpr (fun x hx => by simp [h x hx])

lemma findPseudoLRUVictim_spec (set : CacheSet) (hne : set.blocks ≠ []) :
    ∃ b, findPseudoLRUVictim set = some b ∧ b ∈ set.blocks := by
  unfold findPseudoLRUVictim
  cases hget :
      set.blocks[getPseudoLRUVictim set.pseudoLRUBits set.blocks.length]? with
  | some b =>
    dsimp only
    by_cases hlock : b.isLocked = false
    · rw [if_pos hlock]
      exact ⟨b, rfl, mem_of_getElem?_eq_some hget⟩
    · rw [if_neg hlock]
      exact unlocked_fallback_spec set.blocks hne
  | none =>
    exact unlocked_fallback_spec set.blocks hne

lemma findPseudoLRUVictim_all_locked (set : CacheSet)
    (h : ∀ b ∈ set.blocks, b.isLocked = true) :
    findPseudoLRUVictim set = set.blocks.head? := by
  have hfind := find?_unlocked_none set.blocks h
  unfold findPseudoLRUVictim
  cases hget :
      set.blocks[getPseudoLRUVictim set.pseudoLRUBits set.blocks.length]? with
  | some b =>
    dsimp only
    rw [if_neg (by rw [h b (mem_of_getElem?_eq_some hget)]; simp), hfind]
  | none =>
    dsimp only
    rw [hfind]

lemma selectVictim_spec (p : Perceptron) (set : CacheSet) (pr : Bool)
    (sum : Int) (hne : set.blocks ≠ []) :
    ∃ b, selectVictim p set pr sum = some b ∧ b ∈ set.blocks := by
  unfold selectVictim
  cases hfind : set.blocks.find? (fun c => !c.isValid && !c.isLocked) with
  | some c =>
    exact ⟨c, rfl, List.mem_of_find?_eq_some hfind⟩
  | none =>
    dsimp only
    by_cases hconf : abs32 sum ≥ p.theta
    · rw [if_pos hconf]
      cases pr with
      | true =>
        show ∃ b, (match set.blocks.find? (fun c => !c.isLocked) with
            | some c => some c
            | none => set.blocks.head?) = some b ∧ b ∈ set.blocks
        exact unlocked_fallback_spec set.blocks hne
      | false => exact findPseudoLRUVictim_spec set hne
    · rw [if_neg hconf]
      exact findPseudoLRUVictim_spec set hne

lemma selectVictim_all_locked (p : Perceptron) (set : CacheSet) (pr : Bool)
    (sum : Int) (h : ∀ b ∈ set.blocks, b.isLocked = true) :
    selectVictim p set pr sum = set.blocks.head? := by
  unfold selectVictim
  rw [find?_invalid_none set.blocks h]
  by_cases hconf : abs32 sum ≥ p.theta
  · rw [if_pos hconf]
    cases pr with
    | true =>
      show (match set.blocks.find? (fun c => !c.isLocked) with
          | some c => some c
          | none => set.blocks.head?) = set.blocks.head?
      rw [find?_unlocked_none set.blocks h]
    | false => exact findPseudoLRUVictim_all_locked set h
  · rw [if_neg hconf]
    exact findPseudoLRUVictim_all_locked set h

/-- C1: for every non-empty set whose blocks carry in-range way ids
(as the directory establishes at Reset), FindVictimWithContext returns
some block of the set, that block's way_id is below the associativity,
and when every block is locked the returned block is the first block
of the set. -/
theorem c1_find_victim_total (p : Perceptron) (set : CacheSet)
    (ctx : VictimContext) (hne : set.blocks ≠ [])
    (hway : ∀ b ∈ set.blocks, b.wayID < set.blocks.length) :
    ∃ b, (FindVictimWithContext p set ctx).1 = some b ∧ b ∈ set.blocks ∧
      b.wayID < set.blocks.length ∧
      ((∀ c ∈ set.blocks, c.isLocked = true) → some b = set.blocks.head?) := by
  obtain ⟨b, hb, hmem⟩ := selectVictim_spec
    { p with lastPredictionAddr := ctx.address,
             lastPredictionSum := calculatePredictionSum p ctx.address }
    set (decide (calculatePredictionSum p ctx.address ≥ p.threshold))
    (calculatePredictionSum p ctx.address) hne
  refine ⟨b, hb, hmem, hway b hmem, ?_⟩
  intro hlock
  have h2 := selectVictim_all_locked
    { p with lastPredictionAddr := ctx.address,
             lastPredictionSum := calculatePredictionSum p ctx.address }
    set (decide (calculatePredictionSum p ctx.address ≥ p.threshold))
    (calculatePredictionSum p ctx.address) hlock
  rw [hb] at h2
  exact h2

theorem c1_find_victim_total_witness :
    ∃ b, (FindVictimWithContext NewPerceptronVictimFinder
        ⟨[⟨0, 0, 0, true, false, true⟩, ⟨64, 1, 0, true, false, true⟩], 0⟩
        ⟨5, "read", 0⟩).1 = some b ∧
      b ∈ (⟨[⟨0, 0, 0, true, false, true⟩, ⟨64, 1, 0, true, false, true⟩], 0⟩ :
        CacheSet).blocks ∧
      b.wayID < (⟨[⟨0, 0, 0, true, false, true⟩, ⟨64, 1, 0, true, false, true⟩],
        0⟩ : CacheSet).blocks.length ∧
      ((∀ c ∈ (⟨[⟨0, 0, 0, true, false, true⟩, ⟨64, 1, 0, true, false, true⟩],
          0⟩ : CacheSet).blocks, c.isLocked = true) →
        some b = (⟨[⟨0, 0, 0, true, false, true⟩,
          ⟨64, 1, 0, true, false, true⟩], 0⟩ : CacheSet).blocks.head?) :=
  c1_find_victim_total NewPerceptronVictimFinder
    ⟨[⟨0, 0, 0, true, false, true⟩, ⟨64, 1, 0, true, false, true⟩], 0⟩
    ⟨5, "read", 0⟩ (by decide) (by decide)

end PerceptronCache
